import Mathlib

/-!
Shallow embedding of the Move component of the draggable slider
(src/splide-3.0.2/src/js/components/Move/Move.ts).

Numbers are modelled as rationals (JS numbers in this component stay within
exact decimal arithmetic for the geometries of interest).  External
collaborators (Layout, Direction, Controller, Slides) are modelled as
read-only fields of a context record, mirroring the interface they expose to
`Move`.  The rendered track position (written through the Style collaborator
as a `translateX` rule) is a field of the mutable state record, as are the
`waiting` flag, the Splide `MOVING`/`IDLE` state, and the observable effects
(emitted events, transition starts, `Controller.go` calls, callback runs).
-/

namespace Splide

/-- The `trimSpace` option: `false`, `true`, or the string `'move'`. -/
inductive TrimSpace
  | off
  | on
  | moveMode
deriving DecidableEq

/-- The slider `type` option: `'slide'`, `'loop'` or `'fade'`. -/
inductive SlideType
  | slide
  | loopT
  | fade
deriving DecidableEq

/-- The `focus` option: `'center'` or a number. -/
inductive Focus
  | center
  | num (f : ℚ)
deriving DecidableEq

/-- The subset of `Options` read by the Move component. -/
structure Options where
  waitForTransition : Bool
  trimSpace : TrimSpace
  focus : Focus
  type : SlideType
deriving DecidableEq

/-- JS truthiness of the `trimSpace` option (`!! options.trimSpace`):
`false` is falsy, `true` and `'move'` are truthy. -/
def TrimSpace.truthy : TrimSpace → Bool
  | .off => false
  | _ => true

/-- Read-only collaborators and configuration visible to the Move component:
the Layout collaborator (`slideSize`, `totalSize`, `listSize`, `sliderSize`,
`getPadding`), the Direction collaborator (`orient`, modelled by its sign),
the slide registry (`Components.Slides.get()`, as the ascending list of slide
indices), the Controller's `getEnd()`, and the options. -/
structure Ctx where
  slideSize : Int → Bool → ℚ
  totalSize : Int → ℚ
  listSize : ℚ
  sliderSize : ℚ
  getPadding : Bool → ℚ
  orientSign : ℚ
  slides : List Int
  getEnd : Int
  options : Options

/-- `Direction.orient`: multiplies a value by the orientation sign
(`-1` for the default left-to-right direction). -/
def orient (ctx : Ctx) (x : ℚ) : ℚ := ctx.orientSign * x

/-- `clamp( number, x, y )` from utils: clamps `number` between
`min(x, y)` and `max(x, y)`. -/
def clampQ (x lo hi : ℚ) : ℚ := min (max (min lo hi) x) (max lo hi)

/-- `sign( x )` from utils: `1`, `-1` or `0`. -/
def signQ (x : ℚ) : ℚ := if 0 < x then 1 else if x < 0 then -1 else 0

/-- `offset( index )`: the alignment offset for the configured `focus`.
Source: `focus === 'center' ? ( listSize() - slideSize( index, true ) ) / 2
: +focus * slideSize( index ) || 0` (the `|| 0` only guards a NaN from an
undefined `focus`, which the `Focus` type rules out). -/
def offset (ctx : Ctx) (index : Int) : ℚ :=
  match ctx.options.focus with
  | .center => (ctx.listSize - ctx.slideSize index true) / 2
  | .num f => f * ctx.slideSize index false

/-- `trim( position )`: clamps the position into
`[0, orient( sliderSize() - listSize() )]` when `trimSpace` is truthy and the
slider type is `'slide'`; otherwise returns the position unchanged. -/
def trim (ctx : Ctx) (position : ℚ) : ℚ :=
  if ctx.options.trimSpace.truthy ∧ ctx.options.type = .slide then
    clampQ position 0 (orient ctx (ctx.sliderSize - ctx.listSize))
  else position

/-- `toPosition( index, trimming? )`: converts a slide index to a position,
`orient( totalSize( index - 1 ) - offset( index ) )`, trimmed on request. -/
def toPosition (ctx : Ctx) (index : Int) (trimming : Bool) : ℚ :=
  let position := orient ctx (ctx.totalSize (index - 1) - offset ctx index)
  if trimming then trim ctx position else position

/-- `getLimit( max )`: `toPosition( max ? Controller.getEnd() : 0,
!! options.trimSpace )`. -/
def getLimit (ctx : Ctx) (max : Bool) : ℚ :=
  toPosition ctx (if max then ctx.getEnd else 0) ctx.options.trimSpace.truthy

/-- `exceededLimit( max?, position )`: whether `position` exceeds the minimum
limit (`max !== true` and `orient( position ) < orient( getLimit( false ) )`)
or the maximum limit (`max !== false` and
`orient( position ) > orient( getLimit( true ) )`).  The source defaults an
omitted `position` to `getPosition()`; callers modelled here always pass the
position explicitly. -/
def exceededLimit (ctx : Ctx) (max : Option Bool) (position : ℚ) : Bool :=
  decide ((max ≠ some true ∧ orient ctx position < orient ctx (getLimit ctx false)) ∨
    (max ≠ some false ∧ orient ctx (getLimit ctx true) < orient ctx position))

/-- `loop( position )`: folds the position back inside bounds in loop mode
when no move is waiting.  `cur` is `getPosition()` (the current rendered
position); `diff = orient( position - getPosition() )`; the min branch fires
when the minimum limit is exceeded and `diff < 0`, the max branch when the
maximum limit is exceeded and `diff > 0`; the fold subtracts
`sign( excess ) * sliderSize() * ceil( abs( excess ) / sliderSize() )`. -/
def loop (ctx : Ctx) (waiting : Bool) (cur position : ℚ) : ℚ :=
  if waiting = false ∧ ctx.options.type = .loopT then
    let diff := orient ctx (position - cur)
    let exceededMin := exceededLimit ctx (some false) position && decide (diff < 0)
    let exceededMax := exceededLimit ctx (some true) position && decide (0 < diff)
    if exceededMin || exceededMax then
      let excess := position - getLimit ctx exceededMax
      let size := ctx.sliderSize
      position - signQ excess * size * ((⌈|excess| / size⌉ : ℤ) : ℚ)
    else position
  else position

/-- Comparison of a fresh distance against the running `minDistance`,
whose initial value is `Infinity` (modelled as `none`). -/
def qltOpt (d : ℚ) : Option ℚ → Bool
  | none => true
  | some m => decide (d < m)

/-- The scan loop of `toIndex`: walks the slide registry in order keeping the
running best `index`/`minDistance`, and breaks at the first slide whose
distance does not improve on the minimum. -/
def toIndexGo (ctx : Ctx) (position : ℚ) : List Int → Int → Option ℚ → Int
  | [], index, _ => index
  | s :: rest, index, minDistance =>
    let distance := |toPosition ctx s true - position|
    if qltOpt distance minDistance then toIndexGo ctx position rest s (some distance)
    else index

/-- `toIndex( position )`: the closest slide index to the position, starting
from `index = 0` and `minDistance = Infinity`. -/
def toIndex (ctx : Ctx) (position : ℚ) : Int :=
  toIndexGo ctx position ctx.slides 0 none

/-- The Splide reactive state values `IDLE` and `MOVING` touched by Move. -/
inductive Motion
  | idle
  | moving
deriving DecidableEq

/-- Events emitted by the modelled fragment: `EVENT_MOVE` and `EVENT_MOVED`,
each carrying `( index, prev, dest )`. -/
inductive Ev
  | move (index prev dest : Int)
  | moved (index prev dest : Int)
deriving DecidableEq

/-- A `Controller.go( dir, allowLoop, callback )` request observed at the
Controller boundary: direction (`true` for `'>'`), the second argument, and
whether a callback function was attached. -/
structure GoCall where
  forward : Bool
  allowLoop : Bool
  hasCallback : Bool
deriving DecidableEq

/-- The mutable state owned by (or observable from) the Move component:
the `waiting` flag, the Splide state, the rendered track position (the value
last written into the `translate` transform), and the logs of observable
effects: emitted events, `Transition.start` destinations, `Controller.go`
requests, and direct callback invocations. -/
structure MoveState where
  waiting : Bool
  motion : Motion
  rendered : ℚ
  events : List Ev
  started : List Int
  goCalls : List GoCall
  callbackRuns : Nat
deriving DecidableEq

/-- `isBusy()`: `!! waiting`. -/
def isBusy (st : MoveState) : Bool := st.waiting

/-- `getPosition()`: the current rendered position of the list element. -/
def getPosition (st : MoveState) : ℚ := st.rendered

/-- `translate( position, preventLoop? )`: writes the rendered position,
looping it unless `preventLoop` is set. -/
def translate (ctx : Ctx) (st : MoveState) (position : ℚ) (preventLoop : Bool) : MoveState :=
  { st with rendered := if preventLoop then position else loop ctx st.waiting st.rendered position }

/-- `jump( index )`: `translate( toPosition( index, true ) )`. -/
def jump (ctx : Ctx) (st : MoveState) (index : Int) : MoveState :=
  translate ctx st (toPosition ctx index true) false

/-- The synchronous part of `move( dest, index, prev, callback? )`: dropped
when `isBusy()`; otherwise sets `waiting = ( dest !== index ) ||
options.waitForTransition`, sets the `MOVING` state, emits `EVENT_MOVE`, and
delegates to `Transition.start( dest, ... )`.  `hasCallback` records whether
a callback argument was supplied. -/
def move (ctx : Ctx) (st : MoveState) (dest index prev : Int) (hasCallback : Bool) : MoveState :=
  if isBusy st then st
  else
    { st with
      waiting := decide (dest ≠ index) || ctx.options.waitForTransition
      motion := .moving
      events := st.events ++ [.move index prev dest]
      started := st.started ++ [dest] }

/-- The completion handler passed to `Transition.start` by `move`: jumps to
`index` when `dest !== index` (while `waiting` is still set), clears
`waiting`, sets `IDLE`, emits `EVENT_MOVED`, then either issues the
trim-space follow-up `Controller.go( dest > prev ? '>' : '<', false,
callback )` (when `trimSpace === 'move'`, `dest !== prev` and the position
captured at `move` time equals `getPosition()`) or invokes the callback
directly.  `position` is the value of `getPosition()` captured when `move`
ran; `hasCallback` whether a callback was supplied to `move`. -/
def moveComplete (ctx : Ctx) (st : MoveState) (dest index prev : Int) (position : ℚ)
    (hasCallback : Bool) : MoveState :=
  let st1 := if dest ≠ index then jump ctx st index else st
  let st2 := { st1 with
    waiting := false
    motion := .idle
    events := st1.events ++ [.moved index prev dest] }
  if ctx.options.trimSpace = .moveMode ∧ dest ≠ prev ∧ position = getPosition st2 then
    { st2 with goCalls := st2.goCalls ++ [⟨decide (prev < dest), false, hasCallback⟩] }
  else
    { st2 with callbackRuns := st2.callbackRuns + (if hasCallback then 1 else 0) }

/-- `cancel()`: clears `waiting`, cancels the transition at the executor
boundary, then re-asserts the current position through `translate`. -/
def cancel (ctx : Ctx) (st : MoveState) : MoveState :=
  let st1 := { st with waiting := false }
  translate ctx st1 (getPosition st1) false

/-- The state of a freshly mounted Move component: `waiting` is undefined
(falsy), the Splide state idle, the track at position 0, no effects yet. -/
def initState : MoveState :=
  { waiting := false, motion := .idle, rendered := 0
    events := [], started := [], goCalls := [], callbackRuns := 0 }

/-- The geometry of the test fixture: `N` slides of size 200, a 200px
viewport, no gaps and no padding, leading alignment (`focus = 0`), default
left-to-right orientation, and `Controller.getEnd() = N - 1`. -/
def uniformCtx (N : ℕ) (ty : SlideType) : Ctx where
  slideSize := fun _ _ => 200
  totalSize := fun i => if i < 0 then 0 else 200 * ((i : ℚ) + 1)
  listSize := 200
  sliderSize := 200 * N
  getPadding := fun _ => 0
  orientSign := -1
  slides := (List.range N).map Int.ofNat
  getEnd := (N : ℤ) - 1
  options := { waitForTransition := true, trimSpace := .on, focus := .num 0, type := ty }

/-- The finite (`'slide'`) test fixture with 5 slides. -/
def slideCtx : Ctx := uniformCtx 5 .slide

/-- The loop-mode test fixture with `N` slides. -/
def loopCtx (N : ℕ) : Ctx := uniformCtx N .loopT

/-- Distance from slide `s` (a natural index) to the target `t`, as computed
inside the `toIndex` scan. -/
def dAt (ctx : Ctx) (t : ℚ) (s : ℕ) : ℚ := |toPosition ctx (s : ℤ) true - t|

/-- The ascending run of slide indices `[k, k+1, ..., k+m-1]` as integers. -/
def ints (k m : ℕ) : List Int := (List.range' k m).map Int.ofNat

/-- A state whose Splide state is `MOVING` while the `waiting` flag is clear:
the configuration `move` leaves behind (until completion) whenever
`dest = index` and `waitForTransition` is off. -/
def movingState : MoveState := { initState with motion := .moving }

/-- A state whose `waiting` flag is set. -/
def busyState : MoveState := { initState with waiting := true }

/-- The slide-mode test fixture reconfigured with `trimSpace: 'move'`. -/
def moveTrimCtx : Ctx :=
  { uniformCtx 5 .slide with
    options := { waitForTransition := true, trimSpace := .moveMode
                 focus := .num 0, type := .slide } }

/- ------------------------------------------------------------------ -/
/- Theorems                                                            -/
/- ------------------------------------------------------------------ -/

/-- C1 (counterexample): a `move` call made while the Splide state is
`MOVING` but the `waiting` flag is clear is NOT a no-op: it mutates the
state, delegates `dest` to the transition executor and emits `EVENT_MOVE` —
the admission gate is `isBusy()` (the `waiting` flag), not the `MOVING`
state. -/
theorem move_while_moving_not_noop :
    movingState.motion = Motion.moving ∧
    movingState.waiting = false ∧
    move slideCtx movingState 1 1 0 false ≠ movingState ∧
    (move slideCtx movingState 1 1 0 false).started = [1] ∧
    (move slideCtx movingState 1 1 0 false).events = [Ev.move 1 0 1] := by
  decide

/-- C1 (amended): `move` is a no-op exactly when the `waiting` flag
(`isBusy()`) is set — state, rendered position, transition delegations and
events are then all unchanged; when the flag is clear the call is admitted
regardless of the Splide `MOVING`/`IDLE` state, sets `MOVING`, emits
`EVENT_MOVE` and delegates to the transition executor. -/
theorem move_gates_on_waiting_flag (ctx : Ctx) (st : MoveState) (dest index prev : ℤ)
    (cb : Bool) :
    (isBusy st = true → move ctx st dest index prev cb = st) ∧
    (isBusy st = false →
      (move ctx st dest index prev cb).motion = .moving ∧
      (move ctx st dest index prev cb).waiting =
        (decide (dest ≠ index) || ctx.options.waitForTransition) ∧
      (move ctx st dest index prev cb).rendered = st.rendered ∧
      (move ctx st dest index prev cb).events = st.events ++ [.move index prev dest] ∧
      (move ctx st dest index prev cb).started = st.started ++ [dest]) := by
  constructor
  · intro h
    simp [move, h]
  · intro h
    simp [move, isBusy] at h ⊢
    simp [h]

/-- Witness for the amended C1: a busy state drops the request entirely,
while a state that is `MOVING` with `waiting` clear accepts it. -/
theorem move_gates_on_waiting_flag_witness :
    move slideCtx busyState 1 1 0 false = busyState ∧
    (move slideCtx movingState 1 1 0 false).motion = .moving := by
  exact ⟨(move_gates_on_waiting_flag slideCtx busyState 1 1 0 false).1 rfl,
    ((move_gates_on_waiting_flag slideCtx movingState 1 1 0 false).2 rfl).1⟩

/-- C2 (counterexample): in the trim-space `'move'` completion branch the
follow-up `Controller.go` request carries the original callback (it is passed
as `go`'s third argument), contradicting the claim that the follow-up is
issued without the callback attached. -/
theorem trim_followup_attaches_callback :
    (moveComplete moveTrimCtx initState 1 1 0 0 true).goCalls =
      [{ forward := true, allowLoop := false, hasCallback := true }] ∧
    (moveComplete moveTrimCtx initState 1 1 0 0 true).callbackRuns = 0 ∧
    ¬ (∀ g ∈ (moveComplete moveTrimCtx initState 1 1 0 0 true).goCalls,
        g.hasCallback = false) := by
  decide

/-- C2 (amended): when `trimSpace = 'move'`, `dest ≠ prev` and the offset
captured before the move equals the offset after completion, a follow-up
navigation request is issued in the direction given by `dest > prev` WITH the
original callback attached to that follow-up (forwarded to the controller),
and the callback is not run directly; the callback is invoked directly
(when supplied) exactly when no follow-up is issued. -/
theorem trim_followup_forwards_callback (ctx : Ctx) (st : MoveState)
    (dest index prev : ℤ) (position : ℚ) (cb : Bool) :
    (ctx.options.trimSpace = .moveMode → dest ≠ prev →
      position = getPosition (if dest ≠ index then jump ctx st index else st) →
      (moveComplete ctx st dest index prev position cb).goCalls =
        st.goCalls ++ [{ forward := decide (prev < dest), allowLoop := false
                         hasCallback := cb }] ∧
      (moveComplete ctx st dest index prev position cb).callbackRuns =
        st.callbackRuns) ∧
    (¬ (ctx.options.trimSpace = .moveMode ∧ dest ≠ prev ∧
        position = getPosition (if dest ≠ index then jump ctx st index else st)) →
      (moveComplete ctx st dest index prev position cb).goCalls = st.goCalls ∧
      (moveComplete ctx st dest index prev position cb).callbackRuns =
        st.callbackRuns + (if cb then 1 else 0)) := by
  constructor
  · intro h1 h2 h3
    by_cases hj : dest ≠ index <;>
      simp_all [moveComplete, jump, translate, getPosition]
  · intro h
    by_cases hj : dest ≠ index
    · simp only [moveComplete, jump, translate, getPosition, hj, ite_true, if_pos,
        Bool.false_eq_true, ite_false] at h ⊢
      rw [if_neg h]
      simp [hj]
    · simp only [moveComplete, jump, translate, getPosition, hj, ite_false, if_neg,
        not_false_iff, Bool.false_eq_true] at h ⊢
      rw [if_neg h]
      simp [hj]

/-- Witness for the amended C2: with `trimSpace: 'move'` a stationary move
from 0 toward 2 issues a forward `go` carrying the callback and does not run
it; with `dest = prev` no follow-up is issued and the callback runs once. -/
theorem trim_followup_forwards_callback_witness :
    ((moveComplete moveTrimCtx initState 2 2 0 0 true).goCalls =
      [{ forward := true, allowLoop := false, hasCallback := true }] ∧
     (moveComplete moveTrimCtx initState 2 2 0 0 true).callbackRuns = 0) ∧
    ((moveComplete moveTrimCtx initState 1 1 1 0 true).goCalls = [] ∧
     (moveComplete moveTrimCtx initState 1 1 1 0 true).callbackRuns = 1) := by
  refine ⟨?_, ?_⟩
  · have h := (trim_followup_forwards_callback moveTrimCtx initState 2 2 0 0 true).1
      rfl (by decide) (by decide)
    exact ⟨h.1, h.2⟩
  · have h := (trim_followup_forwards_callback moveTrimCtx initState 1 1 1 0 true).2
      (by decide)
    exact ⟨h.1, h.2⟩

/-- C7: `isBusy()` is false on the fresh component; after an accepted `move`
it equals `dest ≠ index || waitForTransition`; and the completion handler
always leaves it false. -/
theorem isBusy_lifecycle :
    isBusy initState = false ∧
    (∀ (ctx : Ctx) (st : MoveState) (dest index prev : ℤ) (cb : Bool),
      isBusy st = false →
      isBusy (move ctx st dest index prev cb) =
        (decide (dest ≠ index) || ctx.options.waitForTransition)) ∧
    (∀ (ctx : Ctx) (st : MoveState) (dest index prev : ℤ) (position : ℚ) (cb : Bool),
      isBusy (moveComplete ctx st dest index prev position cb) = false) := by
  refine ⟨rfl, ?_, ?_⟩
  · intro ctx st dest index prev cb h
    simp [move, isBusy] at h ⊢
    simp [h]
  · intro ctx st dest index prev position cb
    simp only [moveComplete, isBusy]
    split_ifs <;> rfl

/-- Witness for C7: the accepted looping move of the test suite reports busy
until the transition executor completes it. -/
theorem isBusy_lifecycle_witness :
    isBusy (move (loopCtx 5) initState 5 0 (-1) false) = true ∧
    isBusy (moveComplete (loopCtx 5) (move (loopCtx 5) initState 5 0 (-1) false)
      5 0 (-1) 0 false) = false := by
  constructor
  · have h := isBusy_lifecycle.2.1 (loopCtx 5) initState 5 0 (-1) false rfl
    rw [h]
    decide
  · exact isBusy_lifecycle.2.2 (loopCtx 5)
      (move (loopCtx 5) initState 5 0 (-1) false) 5 0 (-1) 0 false

/-- C8: the limit boundary is inclusive — the minimum limit itself does not
exceed; any position displaced past the minimum limit in the direction of
travel (under orientation-aware ordering) does exceed; and testing both
bounds is the disjunction of the two single-bound tests. -/
theorem exceededLimit_boundary (ctx : Ctx) :
    exceededLimit ctx (some false) (getLimit ctx false) = false ∧
    (∀ ε : ℚ, 0 < ctx.orientSign * ε →
      exceededLimit ctx (some false) (getLimit ctx false - ε) = true) ∧
    (∀ p : ℚ, exceededLimit ctx none p =
      (exceededLimit ctx (some false) p || exceededLimit ctx (some true) p)) := by
  refine ⟨?_, ?_, ?_⟩
  · simp [exceededLimit]
  · intro ε hε
    simp only [exceededLimit, orient, decide_eq_true_eq]
    left
    refine ⟨by simp, ?_⟩
    have : ctx.orientSign * (getLimit ctx false - ε) =
        ctx.orientSign * getLimit ctx false - ctx.orientSign * ε := by ring
    rw [this]
    linarith
  · intro p
    simp only [exceededLimit]
    rcases lt_or_le (orient ctx p) (orient ctx (getLimit ctx false)) with h1 | h1 <;>
      rcases lt_or_le (orient ctx (getLimit ctx true)) (orient ctx p) with h2 | h2 <;>
        simp [h1, h2, not_lt_of_ge, not_lt.mpr]

/-- Witness for C8: in the slide fixture the minimum limit 0 does not exceed,
while a unit displacement past it (orientation sign −1) does. -/
theorem exceededLimit_boundary_witness :
    exceededLimit slideCtx (some false) (getLimit slideCtx false) = false ∧
    exceededLimit slideCtx (some false) (getLimit slideCtx false - (-1)) = true := by
  exact ⟨(exceededLimit_boundary slideCtx).1,
    (exceededLimit_boundary slideCtx).2.1 (-1) (by norm_num [slideCtx, uniformCtx])⟩

/-- C9: `toPosition( i, true )` clamps the raw position into the interval
between 0 and `orient( sliderSize() - listSize() )` exactly when `trimSpace`
is truthy and the type is `'slide'`; for a falsy `trimSpace` or any non-slide
type (loop, fade) the trimmed result equals the untrimmed one. -/
theorem toPosition_trim_characterization (ctx : Ctx) (i : ℤ) :
    ((ctx.options.trimSpace.truthy = true ∧ ctx.options.type = .slide) →
      toPosition ctx i true =
        clampQ (toPosition ctx i false) 0 (orient ctx (ctx.sliderSize - ctx.listSize))) ∧
    ((ctx.options.trimSpace = .off ∨ ctx.options.type ≠ .slide) →
      toPosition ctx i true = toPosition ctx i false) := by
  constructor
  · intro h
    simp [toPosition, trim, h]
  · intro h
    have hcond : ¬ (ctx.options.trimSpace.truthy = true ∧ ctx.options.type = .slide) := by
      rcases h with h | h
      · intro hc
        rw [h] at hc
        exact absurd hc.1 (by simp [TrimSpace.truthy])
      · exact fun hc => h hc.2
    simp [toPosition, trim, hcond]

/-- Witness for C9: the slide fixture clamps (trivially, inside the range) at
index 1, while the loop fixture leaves index 6 untrimmed. -/
theorem toPosition_trim_characterization_witness :
    toPosition slideCtx 1 true =
      clampQ (toPosition slideCtx 1 false) 0
        (orient slideCtx (slideCtx.sliderSize - slideCtx.listSize)) ∧
    toPosition (loopCtx 5) 6 true = toPosition (loopCtx 5) 6 false := by
  exact ⟨(toPosition_trim_characterization slideCtx 1).1 (by decide),
    (toPosition_trim_characterization (loopCtx 5) 6).2 (by decide)⟩

/-- A rational in the half-open unit interval has ceiling 1. -/
theorem ceil_eq_one_of {q : ℚ} (h1 : 0 < q) (h2 : q ≤ 1) : (⌈q⌉ : ℤ) = 1 := by
  rw [Int.ceil_eq_iff]
  push_cast
  constructor <;> linarith

/-- The loop type is not the slide type (used to discharge `trim` guards). -/
theorem loopT_ne_slide : (SlideType.loopT = SlideType.slide) = False :=
  eq_false (by decide)

/-- C4: when loop mode is active and the waiting flag is clear, a requested
position whose directional delta pushes past the minimum limit while moving
toward it, or past the maximum limit while moving toward it, is folded by
subtracting `sign(excess) * sliderSize * ceil(|excess| / sliderSize)`, where
`excess` is the distance beyond the exceeded limit; and in the loop fixture
with 200px slides, `translate(200)` renders `-(200 * (N - 1))` for every
slide count `N ≥ 1`. -/
theorem loop_wrap_formula_and_scenario :
    (∀ (ctx : Ctx) (cur position : ℚ) (eMin eMax : Bool) (excess : ℚ),
      ctx.options.type = .loopT →
      eMin = (exceededLimit ctx (some false) position &&
        decide (orient ctx (position - cur) < 0)) →
      eMax = (exceededLimit ctx (some true) position &&
        decide (0 < orient ctx (position - cur))) →
      (eMin || eMax) = true →
      excess = position - getLimit ctx eMax →
      loop ctx false cur position =
        position - signQ excess * ctx.sliderSize * ((⌈|excess| / ctx.sliderSize⌉ : ℤ) : ℚ)) ∧
    (∀ N : ℕ, 1 ≤ N →
      (translate (loopCtx N) initState 200 false).rendered = -(200 * ((N : ℚ) - 1))) := by
  have hform : ∀ (ctx : Ctx) (cur position : ℚ) (eMin eMax : Bool) (excess : ℚ),
      ctx.options.type = .loopT →
      eMin = (exceededLimit ctx (some false) position &&
        decide (orient ctx (position - cur) < 0)) →
      eMax = (exceededLimit ctx (some true) position &&
        decide (0 < orient ctx (position - cur))) →
      (eMin || eMax) = true →
      excess = position - getLimit ctx eMax →
      loop ctx false cur position =
        position - signQ excess * ctx.sliderSize * ((⌈|excess| / ctx.sliderSize⌉ : ℤ) : ℚ) := by
    intro ctx cur position eMin eMax excess hty hmin hmax hguard hex
    subst hmin hmax hex
    simp only [loop, hty, and_true, eq_self_iff_true, if_true, ite_true, true_and, and_self]
    rw [if_pos hguard]
  refine ⟨hform, ?_⟩
  intro N hN
  have hNQ : (1:ℚ) ≤ (N:ℚ) := by exact_mod_cast hN
  have hL0 : getLimit (loopCtx N) false = 0 := by
    norm_num [getLimit, toPosition, trim, orient, offset, loopCtx, uniformCtx,
      TrimSpace.truthy, loopT_ne_slide]
  have hceil : (⌈(200:ℚ) / (200 * (N:ℚ))⌉ : ℤ) = 1 := by
    apply ceil_eq_one_of
    · apply div_pos (by norm_num)
      linarith
    · rw [div_le_one (by linarith)]
      linarith
  have hty2 : (loopCtx N).options.type = SlideType.loopT := rfl
  have hsz : (loopCtx N).sliderSize = 200 * (N:ℚ) := rfl
  have hmin : exceededLimit (loopCtx N) (some false) 200 = true := by
    norm_num [exceededLimit, orient, hL0]
    show (loopCtx N).orientSign * 200 < 0
    show (-1 : ℚ) * 200 < 0
    norm_num
  have hdiffneg : decide (orient (loopCtx N) (200 - 0) < 0) = true := by
    have h : orient (loopCtx N) (200 - 0) = -200 := by
      show (-1 : ℚ) * (200 - 0) = -200
      norm_num
    rw [h]
    norm_num
  have hdiffpos : decide ((0:ℚ) < orient (loopCtx N) (200 - 0)) = false := by
    have h : orient (loopCtx N) (200 - 0) = -200 := by
      show (-1 : ℚ) * (200 - 0) = -200
      norm_num
    rw [h]
    norm_num
  have hs1 : signQ ((200:ℚ) - 0) = 1 := by norm_num [signQ]
  have habs : |(200:ℚ) - 0| = 200 := by norm_num
  have hemin : (exceededLimit (loopCtx N) (some false) 200 &&
      decide (orient (loopCtx N) (200 - 0) < 0)) = true := by
    rw [hmin, hdiffneg]
    rfl
  have hemax : (exceededLimit (loopCtx N) (some true) 200 &&
      decide ((0:ℚ) < orient (loopCtx N) (200 - 0))) = false := by
    rw [hdiffpos, Bool.and_false]
  have happ := hform (loopCtx N) 0 200 _ _
    (200 - getLimit (loopCtx N) (exceededLimit (loopCtx N) (some true) 200 &&
      decide ((0:ℚ) < orient (loopCtx N) (200 - 0))))
    hty2 rfl rfl (by rw [hemin, hemax]; rfl) rfl
  rw [hemax, hL0, hs1, habs, hsz, hceil] at happ
  show loop (loopCtx N) false 0 200 = -(200 * ((N : ℚ) - 1))
  rw [happ]
  push_cast
  ring

/-- Witness for C4: in the 5-slide loop fixture `translate(200)` renders
−800 = −(200 × (5 − 1)), and `loop` produces exactly the claimed fold. -/
theorem loop_wrap_formula_and_scenario_witness :
    (translate (loopCtx 5) initState 200 false).rendered = -800 ∧
    loop (loopCtx 5) false 0 200 =
      200 - signQ (200 - getLimit (loopCtx 5) false) * (loopCtx 5).sliderSize *
        ((⌈|200 - getLimit (loopCtx 5) false| / (loopCtx 5).sliderSize⌉ : ℤ) : ℚ) := by
  constructor
  · have h := loop_wrap_formula_and_scenario.2 5 (by norm_num)
    rw [h]
    norm_num
  · exact loop_wrap_formula_and_scenario.1 (loopCtx 5) 0 200 true false
      (200 - getLimit (loopCtx 5) false) rfl
      (show true = _ from (show _ = true by
        norm_num [exceededLimit, getLimit, toPosition, trim, orient, offset,
          loopCtx, uniformCtx, TrimSpace.truthy, loopT_ne_slide]).symm)
      (show false = _ from (show _ = false by
        norm_num [exceededLimit, getLimit, toPosition, trim, orient, offset,
          loopCtx, uniformCtx, TrimSpace.truthy, loopT_ne_slide]).symm)
      rfl rfl

/-- C5 (counterexample): `loop` is not idempotent with the current offset and
geometry held fixed: in the 5-slide loop fixture with current offset 0,
`loop 100 = -900` (the ceil-fold overshoots past the maximum limit −800) and
`loop (-900) = 100`, so `loop (loop 100) ≠ loop 100`. -/
theorem loop_not_idempotent :
    loop (loopCtx 5) false 0 (loop (loopCtx 5) false 0 100) ≠
      loop (loopCtx 5) false 0 100 ∧
    loop (loopCtx 5) false 0 100 = -900 ∧
    loop (loopCtx 5) false 0 (-900) = 100 := by
  have hceil : (⌈(1:ℚ)/10⌉ : ℤ) = 1 := ceil_eq_one_of (by norm_num) (by norm_num)
  have h1 : loop (loopCtx 5) false 0 100 = -900 := by
    norm_num [loop, exceededLimit, getLimit, toPosition, trim, orient, offset, signQ,
      clampQ, loopCtx, uniformCtx, TrimSpace.truthy, loopT_ne_slide, hceil]
  have h2 : loop (loopCtx 5) false 0 (-900) = 100 := by
    norm_num [loop, exceededLimit, getLimit, toPosition, trim, orient, offset, signQ,
      clampQ, loopCtx, uniformCtx, TrimSpace.truthy, loopT_ne_slide, hceil]
  refine ⟨?_, h1, h2⟩
  rw [h1, h2]
  norm_num

/-- C5 (amended): `loop` is idempotent for every offset whose wrapped value
stays within both limits — if `loop x` exceeds neither bound, applying `loop`
again leaves it unchanged (the counterexample shows this hypothesis is
necessary: a fold can land beyond the opposite limit and be folded back). -/
theorem loop_idempotent_within_limits (ctx : Ctx) (w : Bool) (cur x : ℚ)
    (h : exceededLimit ctx none (loop ctx w cur x) = false) :
    loop ctx w cur (loop ctx w cur x) = loop ctx w cur x := by
  have h2 : exceededLimit ctx (some false) (loop ctx w cur x) = false ∧
      exceededLimit ctx (some true) (loop ctx w cur x) = false := by
    simp only [exceededLimit, decide_eq_false_iff_not, not_or, not_and, ne_eq] at h ⊢
    constructor
    · exact ⟨fun _ => h.1 (by simp), fun hT => absurd trivial hT⟩
    · exact ⟨fun hT => absurd trivial hT, fun _ => h.2 (by simp)⟩
  conv_lhs => rw [loop]
  split
  · simp [h2.1, h2.2]
  · rfl

/-- Witness for the amended C5: in the 5-slide loop fixture the offset −100
wraps to itself (within limits) and a second application changes nothing. -/
theorem loop_idempotent_within_limits_witness :
    loop (loopCtx 5) false 0 (loop (loopCtx 5) false 0 (-100)) =
      loop (loopCtx 5) false 0 (-100) := by
  apply loop_idempotent_within_limits
  have h : loop (loopCtx 5) false 0 (-100) = -100 := by
    norm_num [loop, exceededLimit, getLimit, toPosition, trim, orient, offset, signQ,
      clampQ, loopCtx, uniformCtx, TrimSpace.truthy, loopT_ne_slide]
  rw [h]
  norm_num [exceededLimit, getLimit, toPosition, trim, orient, offset,
    loopCtx, uniformCtx, TrimSpace.truthy, loopT_ne_slide]

/-- C10: `loop` applied to the current position itself is the identity (the
directional delta is zero, so neither exceeded-limit branch fires), and
therefore `cancel()` clears `waiting` and re-renders exactly the current
position unchanged. -/
theorem loop_fixed_at_current_and_cancel :
    (∀ (ctx : Ctx) (w : Bool) (cur : ℚ), loop ctx w cur cur = cur) ∧
    (∀ (ctx : Ctx) (st : MoveState),
      (cancel ctx st).rendered = st.rendered ∧ (cancel ctx st).waiting = false) := by
  have hfix : ∀ (ctx : Ctx) (w : Bool) (cur : ℚ), loop ctx w cur cur = cur := by
    intro ctx w cur
    unfold loop
    split
    · simp [orient]
    · rfl
  refine ⟨hfix, ?_⟩
  intro ctx st
  refine ⟨?_, rfl⟩
  simp [cancel, translate, getPosition, hfix]

/-- Unfolding of `ints` at a successor length. -/
theorem ints_succ (k m : ℕ) : ints k (m + 1) = ((k : ℕ) : ℤ) :: ints (k + 1) m := rfl

/-- One step of the `toIndex` scan over a nonempty registry. -/
theorem toIndexGo_cons (ctx : Ctx) (t : ℚ) (s : ℤ) (rest : List ℤ) (idx : ℤ)
    (mD : Option ℚ) :
    toIndexGo ctx t (s :: rest) idx mD =
      if qltOpt |toPosition ctx s true - t| mD then
        toIndexGo ctx t rest s (some |toPosition ctx s true - t|)
      else idx := rfl

/-- The `toIndex` scan over the run `[k, ..., k+m-1]` returns `j` when the
distances improve strictly up to `j` and stop improving right after it
(or the run ends at `j`). -/
theorem toIndexGo_finds (ctx : Ctx) (t : ℚ) (j : ℕ)
    (hmono : ∀ l : ℕ, l < j → dAt ctx t (l + 1) < dAt ctx t l) :
    ∀ (m k : ℕ) (idx : ℤ) (mD : Option ℚ),
      k ≤ j → j < k + m →
      qltOpt (dAt ctx t k) mD = true →
      (j + 1 < k + m → ¬ dAt ctx t (j + 1) < dAt ctx t j) →
      toIndexGo ctx t (ints k m) idx mD = (j : ℤ) := by
  intro m
  induction m with
  | zero =>
    intro k idx mD hk hj _ _
    omega
  | succ m ih =>
    intro k idx mD hk hj hq hstop
    rw [ints_succ, toIndexGo_cons,
      if_pos (show qltOpt |toPosition ctx ((k : ℕ) : ℤ) true - t| mD = true from hq)]
    rcases Nat.eq_or_lt_of_le hk with heq | hlt
    · subst heq
      cases m with
      | zero => rfl
      | succ m' =>
        rw [ints_succ, toIndexGo_cons]
        rw [if_neg (show ¬ (qltOpt |toPosition ctx ((k + 1 : ℕ) : ℤ) true - t|
            (some |toPosition ctx ((k : ℕ) : ℤ) true - t|) = true) from by
          simp only [qltOpt, decide_eq_true_eq]
          exact hstop (by omega))]
    · exact ih (k + 1) ((k : ℕ) : ℤ) (some |toPosition ctx ((k : ℕ) : ℤ) true - t|)
        hlt (by omega)
        (by simp only [qltOpt, decide_eq_true_eq]; exact hmono k hlt)
        (fun hb => hstop (by omega))

/-- A chain of consecutive strict decreases gives strict decrease between any
two indices within the bound. -/
theorem posChainStrict (p : ℕ → ℚ) (i : ℕ) (h : ∀ l : ℕ, l < i → p (l + 1) < p l) :
    ∀ a b : ℕ, a < b → b ≤ i → p b < p a := by
  intro a b hab hbi
  induction b with
  | zero => omega
  | succ b ihb =>
    rcases Nat.lt_or_ge a b with h1 | h2
    · exact lt_trans (h b (by omega)) (ihb h1 (by omega))
    · have haeq : a = b := by omega
      subst haeq
      exact h a (by omega)

/-- The slide registry of the 5-slide fixture, evaluated. -/
theorem slideCtx_slides : slideCtx.slides = [0, 1, 2, 3, 4] := rfl

/-- C3: converting a slide index to its trimmed offset and back yields the
index again: for a registry `[0, ..., n-1]` and an index `i < n` within the
reachable range (the trimmed positions strictly decrease up to `i`, which
fails only past the trim boundary), `toIndex (toPosition i true) = i`. -/
theorem toPosition_toIndex_roundtrip (ctx : Ctx) (n i : ℕ)
    (hs : ctx.slides = ints 0 n) (hin : i < n)
    (hpos : ∀ l : ℕ, l < i →
      toPosition ctx ((l + 1 : ℕ) : ℤ) true < toPosition ctx ((l : ℕ) : ℤ) true) :
    toIndex ctx (toPosition ctx ((i : ℕ) : ℤ) true) = (i : ℤ) := by
  have hpi_lt : ∀ a : ℕ, a < i →
      toPosition ctx ((i : ℕ) : ℤ) true < toPosition ctx ((a : ℕ) : ℤ) true :=
    fun a ha =>
      posChainStrict (fun b : ℕ => toPosition ctx ((b : ℕ) : ℤ) true) i hpos a i ha le_rfl
  have hmono : ∀ l : ℕ, l < i →
      dAt ctx (toPosition ctx ((i : ℕ) : ℤ) true) (l + 1) <
        dAt ctx (toPosition ctx ((i : ℕ) : ℤ) true) l := by
    intro l hl
    have h1 := hpi_lt l hl
    have h2 : toPosition ctx ((i : ℕ) : ℤ) true ≤ toPosition ctx ((l + 1 : ℕ) : ℤ) true := by
      rcases Nat.lt_or_ge (l + 1) i with hlt2 | hge2
      · exact le_of_lt (hpi_lt (l + 1) hlt2)
      · have he : l + 1 = i := by omega
        rw [he]
    have h3 := hpos l hl
    show |toPosition ctx ((l + 1 : ℕ) : ℤ) true - toPosition ctx ((i : ℕ) : ℤ) true| <
      |toPosition ctx ((l : ℕ) : ℤ) true - toPosition ctx ((i : ℕ) : ℤ) true|
    rw [abs_of_nonneg (by linarith), abs_of_nonneg (by linarith)]
    linarith
  have h0 : dAt ctx (toPosition ctx ((i : ℕ) : ℤ) true) i = 0 := by
    show |toPosition ctx ((i : ℕ) : ℤ) true - toPosition ctx ((i : ℕ) : ℤ) true| = 0
    simp
  unfold toIndex
  rw [hs]
  exact toIndexGo_finds ctx _ i hmono n 0 0 none (Nat.zero_le i) (by omega) rfl
    (fun _ => by rw [h0]; exact not_lt.mpr (abs_nonneg _))

/-- Witness for C3: in the 5-slide fixture the round trip holds at index 2. -/
theorem toPosition_toIndex_roundtrip_witness :
    toIndex slideCtx (toPosition slideCtx ((2 : ℕ) : ℤ) true) = ((2 : ℕ) : ℤ) := by
  apply toPosition_toIndex_roundtrip slideCtx 5 2 rfl (by norm_num)
  intro l hl
  interval_cases l <;>
    norm_num [toPosition, trim, orient, offset, clampQ, slideCtx, uniformCtx,
      TrimSpace.truthy]

/-- C6: over a registry `[0, ..., n-1]` whose trimmed positions strictly
decrease, `toIndex` returns the index of the slide whose trimmed offset is
closest to the given offset, with an exact tie resolved toward the lower
index; and the 200px slide fixture gives `toIndex 0 = 0`,
`toIndex (-100) = 0`, `toIndex (-101) = 1`, `toIndex (-300) = 1`,
`toIndex (-301) = 2`. -/
theorem toIndex_nearest :
    (∀ (ctx : Ctx) (n : ℕ) (t : ℚ),
      ctx.slides = ints 0 n →
      0 < n →
      (∀ l : ℕ, l + 1 < n →
        toPosition ctx ((l + 1 : ℕ) : ℤ) true < toPosition ctx ((l : ℕ) : ℤ) true) →
      (∃ j : ℕ, j < n ∧ toIndex ctx t = (j : ℤ)) ∧
      (∀ l : ℕ, l < n →
        |toPosition ctx (toIndex ctx t) true - t| ≤ dAt ctx t l ∧
        (dAt ctx t l = |toPosition ctx (toIndex ctx t) true - t| →
          toIndex ctx t ≤ (l : ℤ)))) ∧
    (toIndex slideCtx 0 = 0 ∧ toIndex slideCtx (-100) = 0 ∧
      toIndex slideCtx (-101) = 1 ∧ toIndex slideCtx (-300) = 1 ∧
      toIndex slideCtx (-301) = 2) := by
  constructor
  · intro ctx n t hs hn hpos
    have hex : ∃ j : ℕ, n ≤ j + 1 ∨ ¬ dAt ctx t (j + 1) < dAt ctx t j :=
      ⟨n - 1, Or.inl (by omega)⟩
    set j := Nat.find hex with hjdef
    have hPj : n ≤ j + 1 ∨ ¬ dAt ctx t (j + 1) < dAt ctx t j := Nat.find_spec hex
    have hjle : j ≤ n - 1 := Nat.find_le (Or.inl (by omega))
    have hjlt : j < n := by omega
    have hmono : ∀ l : ℕ, l < j → dAt ctx t (l + 1) < dAt ctx t l := by
      intro l hl
      have hneg := Nat.find_min hex hl
      push_neg at hneg
      exact hneg.2
    have htix : toIndex ctx t = (j : ℤ) := by
      unfold toIndex
      rw [hs]
      refine toIndexGo_finds ctx t j hmono n 0 0 none (Nat.zero_le j) (by omega) rfl ?_
      intro hb
      rcases hPj with h | h
      · omega
      · exact h
    have hbefore : ∀ a : ℕ, a < j → dAt ctx t j < dAt ctx t a :=
      fun a ha => posChainStrict (dAt ctx t) j hmono a j ha le_rfl
    have hafter : ∀ l : ℕ, j < l → l < n → dAt ctx t j ≤ dAt ctx t l := by
      intro l hjl hln
      have hge : dAt ctx t j ≤ dAt ctx t (j + 1) := by
        rcases hPj with h | h
        · omega
        · exact not_lt.mp h
      rcases Nat.lt_or_ge (j + 1) l with hlt2 | hge2
      · have hj1n : j + 1 < n := by omega
        have hpj : toPosition ctx ((j + 1 : ℕ) : ℤ) true <
            toPosition ctx ((j : ℕ) : ℤ) true := hpos j hj1n
        have hplt : toPosition ctx ((j + 1 : ℕ) : ℤ) true < t := by
          by_contra hc
          push_neg at hc
          have e1 : dAt ctx t (j + 1) = toPosition ctx ((j + 1 : ℕ) : ℤ) true - t := by
            show |toPosition ctx ((j + 1 : ℕ) : ℤ) true - t| = _
            rw [abs_of_nonneg (by linarith)]
          have e2 : dAt ctx t j = toPosition ctx ((j : ℕ) : ℤ) true - t := by
            show |toPosition ctx ((j : ℕ) : ℤ) true - t| = _
            rw [abs_of_nonneg (by linarith)]
          rw [e1, e2] at hge
          linarith
        have hplo : toPosition ctx ((l : ℕ) : ℤ) true <
            toPosition ctx ((j + 1 : ℕ) : ℤ) true := by
          have hpos' : ∀ a : ℕ, a < n - 1 → toPosition ctx ((a + 1 : ℕ) : ℤ) true <
              toPosition ctx ((a : ℕ) : ℤ) true := fun a ha => hpos a (by omega)
          exact posChainStrict (fun b : ℕ => toPosition ctx ((b : ℕ) : ℤ) true) (n - 1)
            hpos' (j + 1) l hlt2 (by omega)
        have e3 : dAt ctx t l = t - toPosition ctx ((l : ℕ) : ℤ) true := by
          show |toPosition ctx ((l : ℕ) : ℤ) true - t| = _
          rw [abs_of_neg (by linarith)]
          ring
        have e4 : dAt ctx t (j + 1) = t - toPosition ctx ((j + 1 : ℕ) : ℤ) true := by
          show |toPosition ctx ((j + 1 : ℕ) : ℤ) true - t| = _
          rw [abs_of_neg (by linarith)]
          ring
        rw [e3]
        rw [e4] at hge
        linarith
      · have he : j + 1 = l := by omega
        rw [he] at hge
        exact hge
    refine ⟨⟨j, hjlt, htix⟩, ?_⟩
    intro l hl
    rw [htix]
    have hgoal : dAt ctx t j ≤ dAt ctx t l ∧
        (dAt ctx t l = dAt ctx t j → (j : ℤ) ≤ (l : ℤ)) := by
      rcases lt_trichotomy l j with h | h | h
      · exact ⟨le_of_lt (hbefore l h), fun heq => absurd heq (ne_of_gt (hbefore l h))⟩
      · subst h
        exact ⟨le_rfl, fun _ => le_rfl⟩
      · exact ⟨hafter l h hl, fun _ => by exact_mod_cast Nat.le_of_lt h⟩
    exact hgoal
  · refine ⟨?_, ?_, ?_, ?_, ?_⟩ <;>
      norm_num [toIndex, toIndexGo, qltOpt, toPosition, trim, orient, offset, clampQ,
        slideCtx_slides, slideCtx, uniformCtx, TrimSpace.truthy]

/-- Witness for C6: in the 5-slide fixture `toIndex (-250)` is a registry
index and its slide is at least as close to −250 as slide 3 is. -/
theorem toIndex_nearest_witness :
    (∃ j : ℕ, j < 5 ∧ toIndex slideCtx (-250) = (j : ℤ)) ∧
    |toPosition slideCtx (toIndex slideCtx (-250)) true - (-250)| ≤
      dAt slideCtx (-250) 3 := by
  have h := toIndex_nearest.1 slideCtx 5 (-250) rfl (by norm_num) (by
    intro l hl
    have hl4 : l < 4 := by omega
    interval_cases l <;>
      norm_num [toPosition, trim, orient, offset, clampQ, slideCtx, uniformCtx,
        TrimSpace.truthy])
  exact ⟨h.1, (h.2 3 (by norm_num)).1⟩

end Splide
